import Mathlib

/-!
Verification of the poll-aggregate-render-publish cycle of `src/bot.py`
(a Discord bot that polls Assetto Corsa game-server `/info` endpoints and
publishes a single continuously-edited summary message).

The embedding below translates the source functions into Lean:

* `get_server_info`  — the per-endpoint probe (src/bot.py, lines 115-143);
* `build_embed`      — the grouping / totals / rendering step (lines 149-204),
  split into the stateful loop (`processInfo` / `processAll`) and the pure
  field rendering; the loop can raise `KeyError` exactly where the Python
  `category_totals[info["category"]] += ...` can;
* `update_servers`   — the publish cycle (lines 210-230), as a pure function
  of the external Discord operation outcomes;
* `loopTick`         — the `@tasks.loop` driver semantics for an exception
  escaping the cycle body, modelled from `discord.ext.tasks.Loop`: an
  exception that is not one of the loop's "valid" (network reconnect)
  exceptions is passed to the default error handler, which logs it, and the
  internal task then terminates (the loop stops; the process keeps running).
  Discord API errors (`discord.NotFound`, `discord.Forbidden`, every other
  `discord.HTTPException`) are not in the valid-exception tuple
  `(OSError, discord.GatewayNotFound, discord.ConnectionClosed,
  aiohttp.ClientError, asyncio.TimeoutError)`, so they stop the loop.

Network interaction is modelled by `HttpResult`: the outcome of
`session.get(...)` followed by `await response.json()`.  Per aiohttp
semantics, `response.json()` does not inspect the HTTP status code
(`raise_for_status` is left at its default `False` and is never called);
it raises `ContentTypeError` when the response content type is not JSON and
a decode error when the body is not valid JSON, and otherwise returns the
decoded body — also for non-2xx responses.  The decoded `/info` body is
typed as `InfoData` (the three fields the source reads, each possibly
absent).
-/

namespace AbsaBot

/-- One configured server endpoint (an entry of the Python `SERVERS` list). -/
structure Server where
  name : String
  ip : String
  port : Nat
  category : String
deriving DecidableEq

/-- The `SERVERS` configuration list from src/bot.py (lines 22-86);
`serverIP` stands for the `SERVER_IP` environment value. -/
def SERVERS (serverIP : String) : List Server :=
  [ { name := "ABSA Drift#1 | Rotating Maps | BDC 4.0", ip := serverIP, port := 8081, category := "Drift" },
    { name := "ABSA Drift#2 | Rotating Maps | Gravy Garage", ip := serverIP, port := 8082, category := "Drift" },
    { name := "ABSA Drift#3 | Rotating Maps | SWARM 3.2", ip := serverIP, port := 8083, category := "Drift" },
    { name := "ABSA Drift#4 | Rotating Maps | SWARM 3.2", ip := serverIP, port := 8084, category := "Drift" },
    { name := "ABSA Drift#8 | Rotating Maps | SWARM 3.2 Touge", ip := serverIP, port := 8088, category := "Drift" },
    { name := "ABSA Race#6 | Touge FAST Lap", ip := serverIP, port := 8086, category := "Touge" },
    { name := "ABSA Race#5 | Nordschleife Tourist FAST Lap", ip := serverIP, port := 8085, category := "Track" },
    { name := "ABSA GoKart#7 | Rotating Maps |", ip := serverIP, port := 8087, category := "Track" },
    { name := "ABSA SRP#9 | SRP Traffic|", ip := serverIP, port := 8089, category := "Track" },
    { name := "ABSA SRP#10 | SRP Traffic|", ip := serverIP, port := 8090, category := "Track" } ]

/-- Constant `CATEGORY_ORDER` from src/bot.py (line 88). -/
def CATEGORY_ORDER : List String := ["Drift", "Touge", "Track"]

/-- Constant `CATEGORY_EMOJIS` from src/bot.py (lines 90-94), as an ordered dict. -/
def CATEGORY_EMOJIS : List (String × String) :=
  [("Drift", "🟣"), ("Touge", "🟠"), ("Track", "🔵")]

/-- The fields of a decoded `/info` JSON body that the source reads
(`clients`, `maxclients`, `track`), each possibly absent. -/
structure InfoData where
  clients : Option Int
  maxclients : Option Int
  track : Option String
deriving DecidableEq

/-- Outcome of `session.get(url, timeout=2)` / `await response.json()` for one
probe: the connection may fail, the 2-second timeout may fire, or a response
arrives with some status code, a content type that is or is not JSON, and a
body that decodes to an `InfoData` (`none` = body is not valid JSON). -/
inductive HttpResult where
  | connectionError
  | timeout
  | response (status : Nat) (contentTypeJson : Bool) (body : Option InfoData)
deriving DecidableEq

/-- Semantics of `await response.json()` over a probe outcome: it yields the
decoded body exactly when a response arrived, its content type is JSON and
its body decodes; note it does not look at the status code (aiohttp checks
content type, never status, and `raise_for_status` is not used by the
source).  Every other case raises inside the `try` block. -/
def HttpResult.json : HttpResult → Option InfoData
  | .response _ true (some d) => some d
  | _ => none

/-- Model of `os.path.basename` restricted to the POSIX rule the source relies on:
the part of the path after the last `/` (the whole string when it has no
`/`), computed on the character list. -/
def basename (s : String) : String :=
  String.mk ((s.data.reverse.takeWhile (fun c => decide (c ≠ '/'))).reverse)

/-- The dictionary returned by `get_server_info` (both branches). -/
structure ServerInfo where
  name : String
  category : String
  map : String
  players : String
  num_players : Int
  ip : String
  port : Nat
deriving DecidableEq

/-- The `except:` branch of `get_server_info` (src/bot.py, lines 134-143):
the Offline sentinel dictionary for a server. -/
def offlineSentinel (server : Server) : ServerInfo :=
  { name := server.name
    category := server.category
    map := "Offline"
    players := "0/0"
    num_players := -1
    ip := server.ip
    port := server.port }

/-- Function `get_server_info` (src/bot.py, lines 115-143): if `response.json()`
yields a body, build the status dictionary from `clients` / `maxclients` /
`track` with defaults `0` / `0` / `"Unknown"`; on any exception return the
Offline sentinel (the bare `except:` catches everything, so the probe never
raises). -/
def get_server_info (server : Server) (r : HttpResult) : ServerInfo :=
  match r.json with
  | some data =>
      let num_players := data.clients.getD 0
      let max_players := data.maxclients.getD 0
      let track_name := basename (data.track.getD "Unknown")
      { name := server.name
        category := server.category
        map := track_name
        players := toString num_players ++ "/" ++ toString max_players
        num_players := num_players
        ip := server.ip
        port := server.port }
  | none => offlineSentinel server

/-- The fan-out of `asyncio.gather(*(get_server_info(session, s) for s in
SERVERS))` in `build_embed` (line 151): `gather` returns the results in the
order of its arguments (i.e. configuration order), whatever the completion
order; `resp` gives each server's network outcome for the cycle. -/
def probeAll (serverIP : String) (resp : Server → HttpResult) : List ServerInfo :=
  (SERVERS serverIP).map (fun s => get_server_info s (resp s))

/-- Lookup in an insertion-ordered Python dict modelled as an association
list (first matching key wins; Python dicts have unique keys, so this
agrees with `d[k]` / `d.get(k)`). -/
def lookupA {α : Type} (c : String) : List (String × α) → Option α
  | [] => none
  | (k, v) :: rest => if k = c then some v else lookupA c rest

/-- Statement `grouped.setdefault(cat, []).append(info)` (src/bot.py, line 159) on an
insertion-ordered dict: append `info` to the list at key `c`, creating the
key at the end of the dict when absent. -/
def appendGroup (g : List (String × List ServerInfo)) (c : String) (i : ServerInfo) :
    List (String × List ServerInfo) :=
  match g with
  | [] => [(c, [i])]
  | (k, l) :: rest => if k = c then (k, l ++ [i]) :: rest else (k, l) :: appendGroup rest c i

/-- Statement `category_totals[cat] += n` (src/bot.py, line 161): update the value at
an existing key, or raise `KeyError` (`none`) when the key is absent —
unlike `setdefault`, indexing a dict does not create the key. -/
def bumpTotal (ct : List (String × Int)) (c : String) (n : Int) :
    Option (List (String × Int)) :=
  match ct with
  | [] => none
  | (k, v) :: rest =>
      if k = c then some ((k, v + n) :: rest)
      else (bumpTotal rest c n).map (fun r => (k, v) :: r)

/-- The mutable locals of the grouping / totals loop in `build_embed`
(src/bot.py, lines 154-162). -/
structure EmbedState where
  grouped : List (String × List ServerInfo)
  category_totals : List (String × Int)
  total_players : Int
deriving DecidableEq

/-- Initial loop state (src/bot.py, lines 154-156): empty group and zero
total for every category of `CATEGORY_ORDER`. -/
def initState : EmbedState :=
  { grouped := CATEGORY_ORDER.map (fun c => (c, []))
    category_totals := CATEGORY_ORDER.map (fun c => (c, 0))
    total_players := 0 }

/-- One iteration of the loop body (src/bot.py, lines 158-162): the status
is appended to its category's group (`setdefault` — never fails), then, when
`num_players > 0`, the category total and the grand total are bumped;
`category_totals[...]` raises `KeyError` for a category outside the fixed
dict. -/
def processInfo (st : EmbedState) (info : ServerInfo) : Except String EmbedState :=
  let g := appendGroup st.grouped info.category info
  if 0 < info.num_players then
    match bumpTotal st.category_totals info.category info.num_players with
    | some ct =>
        .ok { grouped := g, category_totals := ct
              total_players := st.total_players + info.num_players }
    | none => .error "KeyError"
  else
    .ok { st with grouped := g }

/-- The whole loop of src/bot.py, lines 158-162, over the gathered results. -/
def processAll (st : EmbedState) : List ServerInfo → Except String EmbedState
  | [] => .ok st
  | i :: rest =>
      match processInfo st i with
      | .ok st2 => processAll st2 rest
      | .error e => .error e

/-- One embed field (`embed.add_field(name=..., value=...)`). -/
structure EmbedField where
  name : String
  value : String
deriving DecidableEq

/-- The rendered embed: title, description and the ordered field list
(thumbnail / image / footer are presentation attributes with constant
values and carry no aggregated data; they are omitted). -/
structure Embed where
  title : String
  description : String
  fields : List EmbedField
deriving DecidableEq

/-- The status marker of a server entry (src/bot.py, line 186):
green when `num_players >= 0`, red otherwise. -/
def statusEmoji (info : ServerInfo) : String :=
  if 0 ≤ info.num_players then "🟢" else "🔴"

/-- The join deep-link (src/bot.py, lines 189-191). -/
def joinUrl (info : ServerInfo) : String :=
  "https://acstuff.club/s/q:race/online/join?ip=" ++ info.ip
    ++ "&httpPort=" ++ toString info.port

/-- One server entry field (src/bot.py, lines 192-196). -/
def serverField (info : ServerInfo) : EmbedField :=
  { name := statusEmoji info ++ " " ++ info.name
    value := "**Map:** " ++ info.map ++ "\n**Players:** " ++ info.players
      ++ "\n[Join Server](" ++ joinUrl info ++ ")" }

/-- The zero-width-space spacer field (src/bot.py, line 199). -/
def spacerField : EmbedField :=
  { name := "​", value := "​" }

/-- The fields emitted for one category (src/bot.py, lines 174-199): header
with emoji (generic marker for unknown categories) and total, then one entry
per grouped server, then a spacer. -/
def categorySection (st : EmbedState) (category : String) : List EmbedField :=
  let emoji := (lookupA category CATEGORY_EMOJIS).getD "📁"
  let total := (lookupA category st.category_totals).getD 0
  ({ name := emoji ++ " **" ++ category ++ " Servers — " ++ toString total ++ " players**"
     value := "​" } : EmbedField)
    :: ((lookupA category st.grouped).getD []).map serverField ++ [spacerField]

/-- Function `build_embed` (src/bot.py, lines 149-204) applied to already-gathered
probe results: run the grouping / totals loop (propagating its possible
`KeyError`), then render title, description and the per-category sections in
`CATEGORY_ORDER`.  Categories added to `grouped` by `setdefault` outside
`CATEGORY_ORDER` are never rendered. -/
def build_embed (infos : List ServerInfo) : Except String Embed :=
  match processAll initState infos with
  | .error e => .error e
  | .ok st =>
      .ok { title := "ABSA Official Servers"
            description := "👥 **Total Players:** " ++ toString st.total_players
            fields := (CATEGORY_ORDER.map (categorySection st)).flatten }

/-- Outcome of one Discord API call (`channel.send` / `message.edit`):
success carrying the resulting message id, a `discord.NotFound` error, any
other Discord API exception (e.g. `discord.Forbidden`, rate limiting), or
a network-class exception — `OSError` / `aiohttp.ClientError` /
`asyncio.TimeoutError`, which discord.py's `HTTPClient.request` re-raises
to the caller.  The distinction matters to the `@tasks.loop` driver: the
network class is in the loop's valid-exception (reconnect) tuple, the
Discord API errors are not. -/
inductive DiscordResult where
  | ok (msgId : Nat)
  | notFound
  | otherError
  | networkError
deriving DecidableEq

/-- The external outcomes one run of `update_servers` can observe:
whether `bot.get_channel(CHANNEL_ID)` resolves, what the `try`-block
`channel.send` would do (initial publish), what `server_message.edit` would
do, and what the `channel.send` in the `except discord.NotFound` handler
would do. -/
structure CycleEnv where
  channelFound : Bool
  sendResult : DiscordResult
  editResult : DiscordResult
  recreateSendResult : DiscordResult
deriving DecidableEq

/-- A message-mutating Discord call performed during a cycle, in order. -/
inductive Action where
  | send
  | edit
deriving DecidableEq

/-- Classification of an exception escaping `update_servers`:
`discord.NotFound` re-raised from the handler's `send`, any other Discord
API error (`discord.HTTPException` subclasses such as `Forbidden` — not in
the tasks-loop reconnect tuple), or a network-class error (`OSError` /
`aiohttp.ClientError` / `asyncio.TimeoutError` — in the reconnect
tuple). -/
inductive ExcKind where
  | notFound
  | other
  | network
deriving DecidableEq

/-- Result of one run of `update_servers`: the value of the global
`server_message` afterwards, the ordered send/edit calls performed, the
exception escaping the coroutine (if any), and whether the
channel-not-found error was logged. -/
structure CycleResult where
  handle : Option Nat
  actions : List Action
  exc : Option ExcKind
  loggedChannelError : Bool
deriving DecidableEq

/-- Function `update_servers` (src/bot.py, lines 210-230) as a function of the
observed Discord outcomes and the current `server_message` global.
Control flow transcribed from the source: unresolved channel → log and
return; `server_message is None` → `send` inside `try` (a `NotFound` from
it is caught by the handler, which `send`s again; that second `send`'s
failure escapes); otherwise `edit` inside `try` (`NotFound` → handler
`send`s; any other failure escapes — the `except discord.NotFound` clause
catches nothing else, so Discord API errors and network errors alike
propagate out of the coroutine, tagged here with their class).
Assignments to `server_message` happen only when the corresponding `await`
returns. -/
def update_servers (env : CycleEnv) (server_message : Option Nat) : CycleResult :=
  if env.channelFound = false then
    { handle := server_message, actions := [], exc := none, loggedChannelError := true }
  else
    match server_message with
    | none =>
        match env.sendResult with
        | .ok m =>
            { handle := some m, actions := [.send], exc := none, loggedChannelError := false }
        | .notFound =>
            match env.recreateSendResult with
            | .ok m2 =>
                { handle := some m2, actions := [.send, .send], exc := none
                  loggedChannelError := false }
            | .notFound =>
                { handle := none, actions := [.send, .send], exc := some .notFound
                  loggedChannelError := false }
            | .otherError =>
                { handle := none, actions := [.send, .send], exc := some .other
                  loggedChannelError := false }
            | .networkError =>
                { handle := none, actions := [.send, .send], exc := some .network
                  loggedChannelError := false }
        | .otherError =>
            { handle := none, actions := [.send], exc := some .other
              loggedChannelError := false }
        | .networkError =>
            { handle := none, actions := [.send], exc := some .network
              loggedChannelError := false }
    | some m =>
        match env.editResult with
        | .ok _ =>
            { handle := some m, actions := [.edit], exc := none, loggedChannelError := false }
        | .notFound =>
            match env.recreateSendResult with
            | .ok m2 =>
                { handle := some m2, actions := [.edit, .send], exc := none
                  loggedChannelError := false }
            | .notFound =>
                { handle := some m, actions := [.edit, .send], exc := some .notFound
                  loggedChannelError := false }
            | .otherError =>
                { handle := some m, actions := [.edit, .send], exc := some .other
                  loggedChannelError := false }
            | .networkError =>
                { handle := some m, actions := [.edit, .send], exc := some .network
                  loggedChannelError := false }
        | .otherError =>
            { handle := some m, actions := [.edit], exc := some .other
              loggedChannelError := false }
        | .networkError =>
            { handle := some m, actions := [.edit], exc := some .network
              loggedChannelError := false }

/-- Cross-tick state of the `@tasks.loop` driver: the `server_message`
global, whether the internal loop task is still scheduled, and whether the
loop's error handler has logged a fatal exception. -/
structure LoopState where
  server_message : Option Nat
  running : Bool
  loggedLoopError : Bool
deriving DecidableEq

/-- One tick of the `@tasks.loop(seconds=UPDATE_INTERVAL)` driver around
`update_servers`, modelled from `discord.ext.tasks.Loop`: when the body
returns normally the loop sleeps until the next fixed-interval tick and
runs again (`running` stays true); when an exception of the loop's
valid-exception tuple (`OSError`, `discord.GatewayNotFound`,
`discord.ConnectionClosed`, `aiohttp.ClientError`,
`asyncio.TimeoutError`) escapes the body, the default `reconnect=True`
branch swallows it — without calling the error handler — sleeps an
exponential-backoff delay and retries, so the loop survives (`running`
stays true, nothing logged by the loop); when any other exception escapes
— a Discord API error such as `discord.NotFound` or `discord.Forbidden` —
the default error handler logs it and the internal task terminates, so no
further tick runs until the process is restarted. -/
def loopTick (env : CycleEnv) (st : LoopState) : LoopState :=
  if st.running = false then st
  else
    let r := update_servers env st.server_message
    match r.exc with
    | none => { server_message := r.handle, running := true
                loggedLoopError := st.loggedLoopError }
    | some .network => { server_message := r.handle, running := true
                         loggedLoopError := st.loggedLoopError }
    | some .notFound => { server_message := r.handle, running := false
                          loggedLoopError := true }
    | some .other => { server_message := r.handle, running := false
                       loggedLoopError := true }

/-- How the driver schedules the work following one tick: the next
fixed-interval tick (clean cycle), an exponential-backoff retry (a
valid-exception escape under `reconnect=True`), or never again (the task
terminated on a non-reconnect exception, or was already stopped). -/
inductive NextRun where
  | interval
  | backoff
  | stopped
deriving DecidableEq

/-- The scheduling decision `discord.ext.tasks.Loop` takes after running
`update_servers` once from state `st`. -/
def loopNextRun (env : CycleEnv) (st : LoopState) : NextRun :=
  if st.running = false then .stopped
  else
    match (update_servers env st.server_message).exc with
    | none => .interval
    | some .network => .backoff
    | some .notFound => .stopped
    | some .other => .stopped

/-- Sum of the player counts of the statuses with a strictly positive
`num_players` — the quantity the totals loop accumulates. -/
def sumPos (l : List ServerInfo) : Int :=
  ((l.filter (fun i => decide (0 < i.num_players))).map (fun i => i.num_players)).sum

/-- Restriction of `sumPos` to the statuses of one category. -/
def sumPosCat (c : String) (l : List ServerInfo) : Int :=
  sumPos (l.filter (fun i => decide (i.category = c)))

/-- The probe results as the event loop observes them: pairs (original
argument index, result) listed in completion order `order`. -/
def completionPairs (infos : List ServerInfo) (order : List Nat) : List (Nat × ServerInfo) :=
  order.filterMap (fun j => (infos[j]?).map (fun x => (j, x)))

/-- The re-association `asyncio.gather` performs: slot `j` of the returned
list receives the completed result whose original index is `j`. -/
def reassemble (n : Nat) (pairs : List (Nat × ServerInfo)) : List (Option ServerInfo) :=
  (List.range n).map (fun j => (pairs.find? (fun p => p.1 == j)).map Prod.snd)

/-! Helper lemmas about the aggregation loop. -/

theorem sumPos_nil : sumPos [] = 0 := rfl

theorem sumPos_cons (i : ServerInfo) (l : List ServerInfo) :
    sumPos (i :: l) = (if 0 < i.num_players then i.num_players else 0) + sumPos l := by
  by_cases h : 0 < i.num_players <;> simp [sumPos, List.filter_cons, h]

theorem sumPosCat_cons (c : String) (i : ServerInfo) (l : List ServerInfo) :
    sumPosCat c (i :: l) =
      (if i.category = c ∧ 0 < i.num_players then i.num_players else 0) + sumPosCat c l := by
  by_cases hc : i.category = c <;> by_cases hp : 0 < i.num_players <;>
    simp [sumPosCat, sumPos, List.filter_cons, hc, hp]

theorem lookupA_appendGroup_self (g : List (String × List ServerInfo)) (c : String)
    (i : ServerInfo) :
    lookupA c (appendGroup g c i) = some ((lookupA c g).getD [] ++ [i]) := by
  induction g with
  | nil => simp [appendGroup, lookupA]
  | cons p rest ih =>
      obtain ⟨k, l⟩ := p
      by_cases hk : k = c
      · subst hk; simp [appendGroup, lookupA]
      · simp [appendGroup, lookupA, hk, ih]

theorem lookupA_appendGroup_other (g : List (String × List ServerInfo)) {c c' : String}
    (i : ServerInfo) (hne : c' ≠ c) :
    lookupA c' (appendGroup g c i) = lookupA c' g := by
  induction g with
  | nil =>
      have h1 : ¬c = c' := fun h => hne h.symm
      simp [appendGroup, lookupA, h1]
  | cons p rest ih =>
      obtain ⟨k, l⟩ := p
      by_cases hk : k = c
      · subst hk
        have h1 : ¬k = c' := fun h => hne h.symm
        simp [appendGroup, lookupA, h1]
      · simp [appendGroup, lookupA, hk, ih]

theorem bumpTotal_keys {ct ct' : List (String × Int)} {c : String} {n : Int}
    (h : bumpTotal ct c n = some ct') :
    ct'.map Prod.fst = ct.map Prod.fst := by
  induction ct generalizing ct' with
  | nil => simp [bumpTotal] at h
  | cons p rest ih =>
      obtain ⟨k, v⟩ := p
      by_cases hk : k = c
      · subst hk
        simp [bumpTotal] at h
        subst h
        simp
      · simp [bumpTotal, hk] at h
        obtain ⟨r, hr, hct⟩ := h
        subst hct
        simp [ih hr]

theorem bumpTotal_eq_none_iff (ct : List (String × Int)) (c : String) (n : Int) :
    bumpTotal ct c n = none ↔ c ∉ ct.map Prod.fst := by
  induction ct with
  | nil => simp [bumpTotal]
  | cons p rest ih =>
      obtain ⟨k, v⟩ := p
      by_cases hk : k = c
      · subst hk; simp [bumpTotal]
      · have h1 : ¬c = k := fun h => hk h.symm
        simp [bumpTotal, hk, Option.map_eq_none', ih, h1]

theorem map_bump_of_not_mem {ct : List (String × Int)} {c : String} {n : Int}
    (h : c ∉ ct.map Prod.fst) :
    ct.map (fun p => if p.1 = c then (p.1, p.2 + n) else p) = ct := by
  induction ct with
  | nil => rfl
  | cons p rest ih =>
      simp only [List.map_cons, List.mem_cons, not_or] at h
      obtain ⟨h1, h2⟩ := h
      have hp : ¬p.1 = c := fun hh => h1 hh.symm
      simp [hp, ih h2]

theorem bumpTotal_eq_map {ct ct' : List (String × Int)} {c : String} {n : Int}
    (hnd : (ct.map Prod.fst).Nodup) (h : bumpTotal ct c n = some ct') :
    ct' = ct.map (fun p => if p.1 = c then (p.1, p.2 + n) else p) := by
  induction ct generalizing ct' with
  | nil => simp [bumpTotal] at h
  | cons p rest ih =>
      obtain ⟨k, v⟩ := p
      simp only [List.map_cons, List.nodup_cons] at hnd
      by_cases hk : k = c
      · subst hk
        simp [bumpTotal] at h
        subst h
        simp [map_bump_of_not_mem hnd.1]
      · simp [bumpTotal, hk] at h
        obtain ⟨r, hr, hct⟩ := h
        subst hct
        simp [hk, ih hnd.2 hr]

theorem processAll_ok_spec (infos : List ServerInfo) :
    ∀ st st', (st.category_totals.map Prod.fst).Nodup →
      processAll st infos = .ok st' →
      st'.total_players = st.total_players + sumPos infos ∧
      st'.category_totals
        = st.category_totals.map (fun p => (p.1, p.2 + sumPosCat p.1 infos)) ∧
      ∀ c l, lookupA c st.grouped = some l →
        lookupA c st'.grouped
          = some (l ++ infos.filter (fun i => decide (i.category = c))) := by
  induction infos with
  | nil =>
      intro st st' hnd h
      simp only [processAll] at h
      injection h with h
      subst h
      refine ⟨by simp [sumPos_nil], ?_, ?_⟩
      · have hid : ∀ p : String × Int, (p.1, p.2 + sumPosCat p.1 ([] : List ServerInfo)) = p := by
          intro p
          have : sumPosCat p.1 ([] : List ServerInfo) = 0 := rfl
          simp [this]
        simp [hid]
      · intro c l hcl
        simpa using hcl
  | cons i rest ih =>
      intro st st' hnd h
      simp only [processAll] at h
      rcases hpi : processInfo st i with e | st2
      · rw [hpi] at h
        simp at h
      · rw [hpi] at h
        simp only at h
        by_cases hp : 0 < i.num_players
        · simp only [processInfo, hp, if_true] at hpi
          rcases hb : bumpTotal st.category_totals i.category i.num_players with _ | ct2
          · rw [hb] at hpi
            simp at hpi
          · rw [hb] at hpi
            simp only at hpi
            injection hpi with hpi
            subst hpi
            have hnd2 : (ct2.map Prod.fst).Nodup := by
              rw [bumpTotal_keys hb]; exact hnd
            obtain ⟨h1, h2, h3⟩ := ih _ st' hnd2 h
            refine ⟨?_, ?_, ?_⟩
            · rw [h1]
              simp only
              rw [sumPos_cons, if_pos hp]
              omega
            · rw [h2]
              simp only
              rw [bumpTotal_eq_map hnd hb, List.map_map]
              apply List.map_congr_left
              intro p _
              by_cases hpc : p.1 = i.category
              · have hcond : i.category = p.1 ∧ 0 < i.num_players := ⟨hpc.symm, hp⟩
                simp only [Function.comp_apply, if_pos hpc, sumPosCat_cons, if_pos hcond]
                rw [add_assoc]
              · have hcond : ¬(i.category = p.1 ∧ 0 < i.num_players) := by
                  intro hcc
                  exact hpc hcc.1.symm
                simp only [Function.comp_apply, if_neg hpc, sumPosCat_cons, if_neg hcond,
                  zero_add]
            · intro c l hcl
              by_cases hc : i.category = c
              · have hl2 : lookupA c
                    (appendGroup st.grouped i.category i) = some (l ++ [i]) := by
                  rw [hc, lookupA_appendGroup_self, hcl]
                  simp
                have h3' := h3 c (l ++ [i]) (by simpa using hl2)
                rw [h3']
                simp [List.filter_cons, hc]
              · have hl2 : lookupA c
                    (appendGroup st.grouped i.category i) = some l := by
                  rw [lookupA_appendGroup_other _ _ (fun hh => hc hh.symm), hcl]
                have h3' := h3 c l (by simpa using hl2)
                rw [h3']
                simp [List.filter_cons, hc]
        · simp only [processInfo, hp, if_false] at hpi
          injection hpi with hpi
          subst hpi
          obtain ⟨h1, h2, h3⟩ :=
            ih { grouped := appendGroup st.grouped i.category i
                 category_totals := st.category_totals
                 total_players := st.total_players } st' hnd h
          refine ⟨?_, ?_, ?_⟩
          · rw [h1]
            simp only
            rw [sumPos_cons, if_neg hp]
            omega
          · rw [h2]
            simp only
            apply List.map_congr_left
            intro p _
            have hcond : ¬(i.category = p.1 ∧ 0 < i.num_players) := by
              intro hcc
              exact hp hcc.2
            rw [sumPosCat_cons, if_neg hcond, zero_add]
          · intro c l hcl
            by_cases hc : i.category = c
            · have hl2 : lookupA c
                  (appendGroup st.grouped i.category i) = some (l ++ [i]) := by
                rw [hc, lookupA_appendGroup_self, hcl]
                simp
              have h3' := h3 c (l ++ [i]) (by simpa using hl2)
              rw [h3']
              simp [List.filter_cons, hc]
            · have hl2 : lookupA c
                  (appendGroup st.grouped i.category i) = some l := by
                rw [lookupA_appendGroup_other _ _ (fun hh => hc hh.symm), hcl]
              have h3' := h3 c l (by simpa using hl2)
              rw [h3']
              simp [List.filter_cons, hc]

theorem processInfo_keys {st st2 : EmbedState} {i : ServerInfo}
    (h : processInfo st i = .ok st2) :
    st2.category_totals.map Prod.fst = st.category_totals.map Prod.fst := by
  by_cases hp : 0 < i.num_players
  · simp only [processInfo, hp, if_true] at h
    rcases hb : bumpTotal st.category_totals i.category i.num_players with _ | ct2
    · rw [hb] at h
      simp at h
    · rw [hb] at h
      injection h with h
      subst h
      exact bumpTotal_keys hb
  · simp only [processInfo, hp, if_false] at h
    injection h with h
    subst h
    rfl

theorem processInfo_ok_exists_iff (st : EmbedState) (i : ServerInfo) :
    (∃ st2, processInfo st i = .ok st2) ↔
      (0 < i.num_players → i.category ∈ st.category_totals.map Prod.fst) := by
  by_cases hp : 0 < i.num_players
  · simp only [processInfo, hp, if_true]
    rcases hb : bumpTotal st.category_totals i.category i.num_players with _ | ct2
    · have hn := (bumpTotal_eq_none_iff st.category_totals i.category i.num_players).mp hb
      simp [hp, hn]
    · have hmem : i.category ∈ st.category_totals.map Prod.fst := by
        by_contra hc
        rw [← bumpTotal_eq_none_iff st.category_totals i.category i.num_players] at hc
        rw [hc] at hb
        exact Option.noConfusion hb
      simp [hp, hmem]
  · simp only [processInfo, hp, if_false]
    simp [hp]

theorem processInfo_error_eq {st : EmbedState} {i : ServerInfo} {e : String}
    (h : processInfo st i = .error e) : e = "KeyError" := by
  by_cases hp : 0 < i.num_players
  · simp only [processInfo, hp, if_true] at h
    rcases hb : bumpTotal st.category_totals i.category i.num_players with _ | ct2
    · rw [hb] at h
      injection h with h
      exact h.symm
    · rw [hb] at h
      simp at h
  · simp only [processInfo, hp, if_false] at h
    simp at h

theorem processAll_ok_iff (infos : List ServerInfo) :
    ∀ st, (∃ st', processAll st infos = .ok st') ↔
      (∀ i ∈ infos, 0 < i.num_players → i.category ∈ st.category_totals.map Prod.fst) := by
  induction infos with
  | nil =>
      intro st
      simp [processAll]
  | cons i rest ih =>
      intro st
      constructor
      · rintro ⟨st', h⟩
        simp only [processAll] at h
        rcases hpi : processInfo st i with e | st2
        · rw [hpi] at h
          simp at h
        · rw [hpi] at h
          simp only at h
          intro j hj hjp
          rcases List.mem_cons.mp hj with rfl | hj'
          · exact (processInfo_ok_exists_iff st j).mp ⟨st2, hpi⟩ hjp
          · have := (ih st2).mp ⟨st', h⟩ j hj' hjp
            rwa [processInfo_keys hpi] at this
      · intro hall
        have hi : ∃ st2, processInfo st i = .ok st2 :=
          (processInfo_ok_exists_iff st i).mpr (hall i (List.mem_cons_self i rest))
        obtain ⟨st2, hpi⟩ := hi
        have hrest : ∀ j ∈ rest, 0 < j.num_players →
            j.category ∈ st2.category_totals.map Prod.fst := by
          intro j hj hjp
          rw [processInfo_keys hpi]
          exact hall j (List.mem_cons_of_mem i hj) hjp
        obtain ⟨st', h⟩ := (ih st2).mpr hrest
        exact ⟨st', by simp only [processAll]; rw [hpi]; exact h⟩

theorem processAll_error_eq (infos : List ServerInfo) :
    ∀ st e, processAll st infos = .error e → e = "KeyError" := by
  induction infos with
  | nil =>
      intro st e h
      simp [processAll] at h
  | cons i rest ih =>
      intro st e h
      simp only [processAll] at h
      rcases hpi : processInfo st i with e2 | st2
      · rw [hpi] at h
        injection h with h
        rw [← h]
        exact processInfo_error_eq hpi
      · rw [hpi] at h
        exact ih st2 e h

theorem processAll_dichotomy (infos : List ServerInfo) (st : EmbedState) :
    (∃ st', processAll st infos = .ok st') ∨ processAll st infos = .error "KeyError" := by
  rcases h : processAll st infos with e | st'
  · right
    rw [← processAll_error_eq infos st e h]
  · left
    exact ⟨st', rfl⟩

theorem sum_map_add (l : List String) (f g : String → Int) :
    (l.map (fun x => f x + g x)).sum = (l.map f).sum + (l.map g).sum := by
  induction l with
  | nil => simp
  | cons x xs ih =>
      simp only [List.map_cons, List.sum_cons, ih]
      ring

theorem sum_map_ite_zero (cats : List String) (x : String) (v : Int) (hx : x ∉ cats) :
    (cats.map (fun c => if x = c then v else 0)).sum = 0 := by
  induction cats with
  | nil => simp
  | cons c cs ih =>
      simp only [List.mem_cons, not_or] at hx
      simp [hx.1, ih hx.2]

theorem sum_map_ite_eq (cats : List String) (x : String) (v : Int)
    (hnd : cats.Nodup) (hx : x ∈ cats) :
    (cats.map (fun c => if x = c then v else 0)).sum = v := by
  induction cats with
  | nil => simp at hx
  | cons c cs ih =>
      simp only [List.nodup_cons] at hnd
      rcases List.mem_cons.mp hx with rfl | hx'
      · simp [sum_map_ite_zero cs x v hnd.1]
      · have hxc : ¬x = c := by
          intro hh
          subst hh
          exact hnd.1 hx'
        simp [hxc, ih hnd.2 hx']

theorem sum_sumPosCat (cats : List String) (infos : List ServerInfo)
    (hnd : cats.Nodup)
    (hall : ∀ i ∈ infos, 0 < i.num_players → i.category ∈ cats) :
    (cats.map (fun c => sumPosCat c infos)).sum = sumPos infos := by
  induction infos with
  | nil =>
      have h0 : ∀ c, sumPosCat c ([] : List ServerInfo) = 0 := fun _ => rfl
      simp [h0, sumPos_nil]
  | cons i rest ih =>
      have hall' : ∀ j ∈ rest, 0 < j.num_players → j.category ∈ cats :=
        fun j hj => hall j (List.mem_cons_of_mem i hj)
      have hstep : (cats.map (fun c => sumPosCat c (i :: rest))).sum
          = (cats.map (fun c =>
              (if i.category = c ∧ 0 < i.num_players then i.num_players else 0)
                + sumPosCat c rest)).sum := by
        simp [sumPosCat_cons]
      rw [hstep, sum_map_add, ih hall', sumPos_cons]
      by_cases hp : 0 < i.num_players
      · have hx := hall i (List.mem_cons_self i rest) hp
        have hcongr : (cats.map (fun c =>
            if i.category = c ∧ 0 < i.num_players then i.num_players else 0))
            = cats.map (fun c => if i.category = c then i.num_players else 0) := by
          apply List.map_congr_left
          intro c _
          by_cases hc : i.category = c <;> simp [hc, hp]
        rw [hcongr, sum_map_ite_eq cats i.category i.num_players hnd hx, if_pos hp]
      · have hcongr : (cats.map (fun c =>
            if i.category = c ∧ 0 < i.num_players then i.num_players else 0))
            = cats.map (fun _ => (0 : Int)) := by
          apply List.map_congr_left
          intro c _
          simp [hp]
        rw [hcongr, if_neg hp]
        simp

theorem find_completionPairs (infos : List ServerInfo) (j : Nat) (v : ServerInfo)
    (hv : infos[j]? = some v) :
    ∀ order : List Nat, j ∈ order →
      (completionPairs infos order).find? (fun p => p.1 == j) = some (j, v) := by
  intro order
  induction order with
  | nil => simp
  | cons a os ih =>
      intro hj
      by_cases ha : a = j
      · subst ha
        simp only [completionPairs, List.filterMap_cons, hv, Option.map_some']
        rw [List.find?]
        simp
      · have hj' : j ∈ os := by
          rcases List.mem_cons.mp hj with h | h
          · exact absurd h.symm ha
          · exact h
        rcases hb : infos[a]? with _ | w
        · simpa only [completionPairs, List.filterMap_cons, hb] using ih hj'
        · simp only [completionPairs, List.filterMap_cons, hb, Option.map_some']
          rw [List.find?]
          have : (a == j) = false := by
            simp [ha]
          rw [this]
          exact ih hj'

theorem reassemble_perm (infos : List ServerInfo) (order : List Nat)
    (hperm : order.Perm (List.range infos.length)) :
    reassemble infos.length (completionPairs infos order) = infos.map some := by
  apply List.ext_getElem
  · simp [reassemble]
  · intro j h1 h2
    simp only [reassemble, List.getElem_map, List.getElem_range]
    have hj : j < infos.length := by simpa [reassemble] using h1
    have hmem : j ∈ order := hperm.mem_iff.mpr (List.mem_range.mpr hj)
    rw [find_completionPairs infos j infos[j] (List.getElem?_eq_getElem hj) order hmem]
    rfl

theorem map_update_id_of_not_mem {α : Type} {g : List (String × α)} {c : String}
    (upd : α → α) (h : c ∉ g.map Prod.fst) :
    g.map (fun p => if p.1 = c then (p.1, upd p.2) else p) = g := by
  induction g with
  | nil => rfl
  | cons p rest ih =>
      simp only [List.map_cons, List.mem_cons, not_or] at h
      obtain ⟨h1, h2⟩ := h
      have hp : ¬p.1 = c := fun hh => h1 hh.symm
      simp [hp, ih h2]

theorem map_fst_update {α : Type} (g : List (String × α)) (c : String) (upd : α → α) :
    (g.map (fun p => if p.1 = c then (p.1, upd p.2) else p)).map Prod.fst
      = g.map Prod.fst := by
  induction g with
  | nil => rfl
  | cons p rest ih =>
      by_cases hp : p.1 = c <;> simp [hp, ih]

theorem appendGroup_eq_map {g : List (String × List ServerInfo)} {c : String}
    {i : ServerInfo} (hnd : (g.map Prod.fst).Nodup) (hc : c ∈ g.map Prod.fst) :
    appendGroup g c i = g.map (fun p => if p.1 = c then (p.1, p.2 ++ [i]) else p) := by
  induction g with
  | nil => simp at hc
  | cons p rest ih =>
      obtain ⟨k, l⟩ := p
      simp only [List.map_cons, List.nodup_cons] at hnd
      by_cases hk : k = c
      · subst hk
        simp [appendGroup, map_update_id_of_not_mem (fun l2 => l2 ++ [i]) hnd.1]
      · have hc' : c ∈ rest.map Prod.fst := by
          rcases List.mem_cons.mp hc with h | h
          · exact absurd h.symm hk
          · exact h
        simp only [appendGroup, if_neg hk, List.map_cons, if_neg hk]
        rw [ih hnd.2 hc']

theorem processAll_grouped_eq (infos : List ServerInfo) :
    ∀ st st', (st.grouped.map Prod.fst).Nodup →
      (∀ i ∈ infos, i.category ∈ st.grouped.map Prod.fst) →
      processAll st infos = .ok st' →
      st'.grouped = st.grouped.map (fun p =>
        (p.1, p.2 ++ infos.filter (fun i => decide (i.category = p.1)))) := by
  induction infos with
  | nil =>
      intro st st' _ _ h
      simp only [processAll] at h
      injection h with h
      subst h
      have hid : ∀ p : String × List ServerInfo,
          (p.1, p.2 ++ List.filter (fun i => decide (i.category = p.1)) []) = p := by
        intro p
        simp
      simp [hid]
  | cons i rest ih =>
      intro st st' hnd hkeys h
      simp only [processAll] at h
      rcases hpi : processInfo st i with e | st2
      · rw [hpi] at h
        simp at h
      · rw [hpi] at h
        simp only at h
        have hg2 : st2.grouped = appendGroup st.grouped i.category i := by
          by_cases hp : 0 < i.num_players
          · simp only [processInfo, hp, if_true] at hpi
            rcases hb : bumpTotal st.category_totals i.category i.num_players with _ | ct2
            · rw [hb] at hpi
              simp at hpi
            · rw [hb] at hpi
              injection hpi with hpi
              subst hpi
              rfl
          · simp only [processInfo, hp, if_false] at hpi
            injection hpi with hpi
            subst hpi
            rfl
        have hmap : st2.grouped = st.grouped.map (fun p =>
            if p.1 = i.category then (p.1, p.2 ++ [i]) else p) := by
          rw [hg2]
          exact appendGroup_eq_map hnd (hkeys i (List.mem_cons_self i rest))
        have hkeys2 : st2.grouped.map Prod.fst = st.grouped.map Prod.fst := by
          rw [hmap]
          exact map_fst_update st.grouped i.category (fun l2 => l2 ++ [i])
        have hres := ih st2 st' (by rw [hkeys2]; exact hnd)
          (by
            intro j hj
            rw [hkeys2]
            exact hkeys j (List.mem_cons_of_mem i hj)) h
        rw [hres, hmap, List.map_map]
        apply List.map_congr_left
        intro p _
        by_cases hpc : p.1 = i.category
        · have hic : i.category = p.1 := hpc.symm
          simp only [Function.comp_apply, if_pos hpc, List.filter_cons,
            decide_eq_true_eq, hic, if_pos rfl]
          simp [hic]
        · have hic : ¬(i.category = p.1) := fun hh => hpc hh.symm
          simp only [Function.comp_apply, if_neg hpc, List.filter_cons]
          simp [hic]

theorem get_server_info_category (s : Server) (r : HttpResult) :
    (get_server_info s r).category = s.category := by
  rcases hj : r.json with _ | d <;> simp [get_server_info, hj, offlineSentinel]

theorem SERVERS_category_mem (ip : String) :
    ∀ s ∈ SERVERS ip, s.category ∈ CATEGORY_ORDER := by
  intro s hs
  simp only [SERVERS, List.mem_cons, List.not_mem_nil, or_false] at hs
  rcases hs with rfl | rfl | rfl | rfl | rfl | rfl | rfl | rfl | rfl | rfl <;>
    first
      | exact List.mem_cons_self _ _
      | exact List.mem_cons_of_mem _ (List.mem_cons_self _ _)
      | exact List.mem_cons_of_mem _ (List.mem_cons_of_mem _ (List.mem_cons_self _ _))

theorem probeAll_category_mem (ip : String) (resp : Server → HttpResult) :
    ∀ i ∈ probeAll ip resp, i.category ∈ CATEGORY_ORDER := by
  intro i hi
  simp only [probeAll, List.mem_map] at hi
  obtain ⟨s, hs, rfl⟩ := hi
  rw [get_server_info_category]
  exact SERVERS_category_mem ip s hs

theorem initState_ct_keys : initState.category_totals.map Prod.fst = CATEGORY_ORDER := rfl

theorem initState_g_keys : initState.grouped.map Prod.fst = CATEGORY_ORDER := rfl

theorem initState_grouped_lookup {c : String} (hc : c ∈ CATEGORY_ORDER) :
    lookupA c initState.grouped = some [] := by
  simp only [CATEGORY_ORDER, List.mem_cons, List.not_mem_nil, or_false] at hc
  rcases hc with rfl | rfl | rfl <;> rfl

theorem initState_ct_nodup : (initState.category_totals.map Prod.fst).Nodup := by
  rw [initState_ct_keys]
  decide

theorem processAll_probeAll_ok (ip : String) (resp : Server → HttpResult) :
    ∃ st, processAll initState (probeAll ip resp) = .ok st := by
  rw [processAll_ok_iff]
  intro i hi _
  rw [initState_ct_keys]
  exact probeAll_category_mem ip resp i hi

theorem statusEmoji_green_iff (i : ServerInfo) :
    statusEmoji i = "🟢" ↔ 0 ≤ i.num_players := by
  by_cases h : 0 ≤ i.num_players
  · rw [statusEmoji, if_pos h]
    exact iff_of_true rfl h
  · rw [statusEmoji, if_neg h]
    exact iff_of_false (by decide) h

theorem statusEmoji_red_iff (i : ServerInfo) :
    statusEmoji i = "🔴" ↔ i.num_players < 0 := by
  by_cases h : 0 ≤ i.num_players
  · rw [statusEmoji, if_pos h]
    exact iff_of_false (by decide) (by omega)
  · rw [statusEmoji, if_neg h]
    exact iff_of_true rfl (by omega)

theorem countP_eq_single (cats : List String) (x : String)
    (hnd : cats.Nodup) (hx : x ∈ cats) :
    cats.countP (fun c => decide (x = c)) = 1 := by
  induction cats with
  | nil => simp at hx
  | cons c cs ih =>
      simp only [List.nodup_cons] at hnd
      rcases List.mem_cons.mp hx with rfl | hx'
      · have hzero : cs.countP (fun c2 => decide (x = c2)) = 0 := by
          rw [List.countP_eq_zero]
          intro a ha
          simp only [decide_eq_true_eq]
          exact fun hh => hnd.1 (hh ▸ ha)
        simp [List.countP_cons, hzero]
      · have hxc : ¬x = c := fun hh => (hh ▸ hnd.1) hx'
        simp [List.countP_cons, hxc, ih hnd.2 hx']

/-! Concrete inputs used by counterexamples and witnesses. -/

/-- The first configured server (Drift#1), with a concrete `SERVER_IP`. -/
def cexServer : Server :=
  (SERVERS "198.51.100.7").headD { name := "", ip := "", port := 0, category := "" }

/-- A syntactically valid `/info` body whose `clients` field is negative and
whose `track` is the literal string `Offline`. -/
def cexBadBody : InfoData :=
  { clients := some (-1), maxclients := some 20, track := some "Offline" }

/-- A 200 JSON response carrying `cexBadBody`; `response.json()` succeeds on
it, so `get_server_info` takes its success branch. -/
def cexBadResponse : HttpResult := .response 200 true (some cexBadBody)

/-- A well-formed successful probe body. -/
def goodBody : InfoData :=
  { clients := some 5, maxclients := some 20, track := some "content/tracks/spa" }

/-- A 200 JSON response carrying `goodBody`. -/
def goodResponse : HttpResult := .response 200 true (some goodBody)

/-- C1, the claim as frozen, refuted at a concrete input: for the response
`cexBadResponse` (HTTP 200, valid JSON, `clients = -1`, `track = "Offline"`)
the probe result is neither a status with `num_players ≥ 0` and map other
than `"Offline"` nor the Offline sentinel (its ratio string is `"-1/20"`),
and `num_players = -1` although the probe did not fail. -/
theorem claim_C1_counterexample :
    ¬((0 ≤ (get_server_info cexServer cexBadResponse).num_players
        ∧ (get_server_info cexServer cexBadResponse).map ≠ "Offline")
      ∨ get_server_info cexServer cexBadResponse = offlineSentinel cexServer)
    ∧ ¬(((get_server_info cexServer cexBadResponse).num_players = -1)
        ↔ (cexBadResponse.json = none)) := by
  decide

/-- C1 amended: for every descriptor and probe outcome whose decoded body
(if any) has a nonnegative `clients` value (counting the default `0` for a
missing field) and whose `track`'s final path component (default
`"Unknown"`) is not the literal `"Offline"`, the probe returns either a
status with `num_players ≥ 0` and a map name other than `"Offline"`, or
exactly the Offline sentinel; and under that proviso `num_players = -1` iff
the JSON parse failed. -/
theorem claim_C1_amended (server : Server) (r : HttpResult)
    (hwf : ∀ d, r.json = some d → 0 ≤ d.clients.getD 0
      ∧ basename (d.track.getD "Unknown") ≠ "Offline") :
    ((0 ≤ (get_server_info server r).num_players
        ∧ (get_server_info server r).map ≠ "Offline")
      ∨ get_server_info server r = offlineSentinel server)
    ∧ ((get_server_info server r).num_players = -1 ↔ r.json = none) := by
  rcases hj : r.json with _ | d
  · refine ⟨Or.inr ?_, ?_⟩
    · simp [get_server_info, hj]
    · simp [get_server_info, hj, offlineSentinel]
  · obtain ⟨h1, h2⟩ := hwf d hj
    refine ⟨Or.inl ⟨?_, ?_⟩, ?_⟩
    · simpa [get_server_info, hj] using h1
    · simpa [get_server_info, hj] using h2
    · simp only [get_server_info, hj]
      constructor
      · intro hcontra
        simp only at hcontra
        omega
      · intro hcontra
        exact Option.noConfusion hcontra

/-- C1 witness: the amended statement evaluated at the Drift#1 descriptor
and a well-formed 5-player response. -/
theorem claim_C1_witness :
    ((0 ≤ (get_server_info cexServer goodResponse).num_players
        ∧ (get_server_info cexServer goodResponse).map ≠ "Offline")
      ∨ get_server_info cexServer goodResponse = offlineSentinel cexServer)
    ∧ ((get_server_info cexServer goodResponse).num_players = -1
        ↔ goodResponse.json = none) :=
  claim_C1_amended cexServer goodResponse (by
    intro d hd
    injection hd with hd
    subst hd
    decide)

/-- FailureMode predicate transcribed from the claim's words for C2: a
connection error, a timeout, a non-2xx response, a non-JSON body, or a
missing/invalid JSON body. -/
def specClaimedFailure : HttpResult → Prop
  | .connectionError => True
  | .timeout => True
  | .response status contentTypeJson body =>
      status < 200 ∨ 300 ≤ status ∨ contentTypeJson = false ∨ body = none

/-- A valid JSON body delivered with an HTTP 500 status. -/
def cexNon2xxBody : InfoData :=
  { clients := some 3, maxclients := some 10, track := some "spa" }

/-- An HTTP 500 response whose body is nevertheless valid JSON of the
expected shape. -/
def cexNon2xxResponse : HttpResult := .response 500 true (some cexNon2xxBody)

/-- C2, the claim as frozen, refuted at a concrete input: an HTTP 500
response with a parseable JSON body is one of the claim's listed failure
modes (non-2xx), yet `get_server_info` does not return the Offline sentinel
for it — `response.json()` never inspects the status code, so the probe
treats the body as a success (3 players on map `spa`). -/
theorem claim_C2_counterexample :
    specClaimedFailure cexNon2xxResponse
    ∧ get_server_info cexServer cexNon2xxResponse ≠ offlineSentinel cexServer
    ∧ (get_server_info cexServer cexNon2xxResponse).num_players = 3
    ∧ (get_server_info cexServer cexNon2xxResponse).map = "spa" := by
  refine ⟨Or.inr (Or.inl (by norm_num)), ?_, ?_, ?_⟩ <;> decide

/-- C2 amended: on a connection error, a timeout, a response whose content
type is not JSON, or a response whose body is missing/invalid JSON,
`get_server_info` returns exactly the Offline sentinel for the descriptor
(and, being a total function, never raises past the probe boundary); a
non-2xx status alone is not a failure mode — a non-2xx response with a
parseable JSON body is processed as a success. -/
theorem claim_C2_amended (server : Server) (r : HttpResult)
    (hfail : r = .connectionError ∨ r = .timeout
      ∨ (∃ status body, r = .response status false body)
      ∨ (∃ status ct, r = .response status ct none)) :
    get_server_info server r = offlineSentinel server := by
  have hj : r.json = none := by
    rcases hfail with rfl | rfl | ⟨st, b, rfl⟩ | ⟨st, ct, rfl⟩
    · rfl
    · rfl
    · rfl
    · cases ct <;> rfl
  simp [get_server_info, hj]

/-- C2 witness: the amended statement evaluated at the Drift#1 descriptor
and a timed-out probe. -/
theorem claim_C2_witness :
    get_server_info cexServer .timeout = offlineSentinel cexServer :=
  claim_C2_amended cexServer .timeout (Or.inr (Or.inl rfl))

/-- C6: on a successfully decoded response body, the status takes
`num_players` from the `clients` field (default 0), renders the ratio
string from `clients` and `maxclients` (default 0), and shows the final
path component of `track` (default `"Unknown"`) as the map name. -/
theorem claim_C6 (server : Server) (r : HttpResult) (d : InfoData)
    (hj : r.json = some d) :
    (get_server_info server r).num_players = d.clients.getD 0
    ∧ (get_server_info server r).players
        = toString (d.clients.getD 0) ++ "/" ++ toString (d.maxclients.getD 0)
    ∧ (∀ t, d.track = some t → (get_server_info server r).map = basename t)
    ∧ (d.clients = none → (get_server_info server r).num_players = 0)
    ∧ (d.maxclients = none → (get_server_info server r).players
        = toString (d.clients.getD 0) ++ "/0")
    ∧ (d.track = none → (get_server_info server r).map = "Unknown") := by
  have h0 : toString (0 : Int) = "0" := rfl
  have hun : basename "Unknown" = "Unknown" := rfl
  refine ⟨?_, ?_, ?_, ?_, ?_, ?_⟩
  · simp [get_server_info, hj]
  · simp [get_server_info, hj]
  · intro t ht
    simp [get_server_info, hj, ht]
  · intro hc
    simp [get_server_info, hj, hc]
  · intro hm
    simp only [get_server_info, hj, hm, Option.getD_none, h0]
    rw [String.append_assoc]
    rfl
  · intro ht
    simp [get_server_info, hj, ht, hun]

/-- C6 witness: the field-extraction contract evaluated at the Drift#1
descriptor and the 5-player response with `track =
"content/tracks/spa"`. -/
theorem claim_C6_witness :
    (get_server_info cexServer goodResponse).num_players = goodBody.clients.getD 0
    ∧ (get_server_info cexServer goodResponse).players
        = toString (goodBody.clients.getD 0) ++ "/" ++ toString (goodBody.maxclients.getD 0)
    ∧ (∀ t, goodBody.track = some t
        → (get_server_info cexServer goodResponse).map = basename t)
    ∧ (goodBody.clients = none → (get_server_info cexServer goodResponse).num_players = 0)
    ∧ (goodBody.maxclients = none → (get_server_info cexServer goodResponse).players
        = toString (goodBody.clients.getD 0) ++ "/0")
    ∧ (goodBody.track = none → (get_server_info cexServer goodResponse).map = "Unknown") :=
  claim_C6 cexServer goodResponse goodBody rfl

/-- C3: in every snapshot the totals loop produces (i.e. whenever it
completes without `KeyError`), each entry of `category_totals` equals
`sumPos` of that category's group members (the sum of `num_players` over
members with `num_players > 0`), the grand total equals the sum of the
per-category totals, and a status with `num_players ≤ 0` (0 or the
-1 sentinel) leaves every total unchanged. -/
theorem claim_C3 (infos : List ServerInfo) (st' : EmbedState)
    (h : processAll initState infos = .ok st') :
    (∀ c t, (c, t) ∈ st'.category_totals →
      ∃ members, lookupA c st'.grouped = some members ∧ t = sumPos members)
    ∧ st'.total_players = (st'.category_totals.map Prod.snd).sum
    ∧ (∀ st i, i.num_players ≤ 0 → ∃ st2, processInfo st i = .ok st2
        ∧ st2.category_totals = st.category_totals
        ∧ st2.total_players = st.total_players) := by
  obtain ⟨h1, h2, h3⟩ := processAll_ok_spec infos initState st' initState_ct_nodup h
  refine ⟨?_, ?_, ?_⟩
  · intro c t hct
    rw [h2] at hct
    simp only [List.mem_map] at hct
    obtain ⟨p, hp, hpe⟩ := hct
    have hc : p.1 = c := congrArg Prod.fst hpe
    have ht : p.2 + sumPosCat p.1 infos = t := congrArg Prod.snd hpe
    have hp0 : p.2 = 0 ∧ p.1 ∈ CATEGORY_ORDER := by
      have hpin : p ∈ CATEGORY_ORDER.map (fun c0 => (c0, (0 : Int))) := hp
      simp only [List.mem_map] at hpin
      obtain ⟨c0, hc0, rfl⟩ := hpin
      exact ⟨rfl, hc0⟩
    have hmem : c ∈ CATEGORY_ORDER := hc ▸ hp0.2
    have hlook := h3 c [] (initState_grouped_lookup hmem)
    refine ⟨infos.filter (fun i => decide (i.category = c)), by simpa using hlook, ?_⟩
    rw [← ht, hp0.1, hc]
    simp [sumPosCat]
  · have hall : ∀ i ∈ infos, 0 < i.num_players → i.category ∈ CATEGORY_ORDER := by
      have hokk := (processAll_ok_iff infos initState).mp ⟨st', h⟩
      intro i hi hip
      have := hokk i hi hip
      rwa [initState_ct_keys] at this
    rw [h1, h2]
    have hct : initState.category_totals = CATEGORY_ORDER.map (fun c => (c, (0 : Int))) := rfl
    rw [hct, List.map_map, List.map_map]
    have hcomp : ((Prod.snd ∘ fun p : String × Int => (p.1, p.2 + sumPosCat p.1 infos))
        ∘ fun c => (c, (0 : Int))) = fun c => sumPosCat c infos := by
      funext c
      simp
    rw [hcomp, sum_sumPosCat CATEGORY_ORDER infos (by decide) hall]
    have h00 : initState.total_players = 0 := rfl
    rw [h00, zero_add]
  · intro st i hip
    refine ⟨{ st with grouped := appendGroup st.grouped i.category i }, ?_, rfl, rfl⟩
    have hnp : ¬0 < i.num_players := by omega
    simp [processInfo, hnp]

/-- Two aggregated statuses used to instantiate C3: one populated Drift
server and one offline Track server. -/
def wInfos : List ServerInfo :=
  [ { name := "a", category := "Drift", map := "spa", players := "5/20",
      num_players := 5, ip := "h", port := 1 },
    { name := "b", category := "Track", map := "Offline", players := "0/0",
      num_players := -1, ip := "h", port := 2 } ]

/-- The snapshot state the totals loop computes on `wInfos`. -/
def wState : EmbedState := ((processAll initState wInfos).toOption).getD initState

/-- C3 witness: the totals invariant evaluated on the concrete two-status
snapshot `wInfos`. -/
theorem claim_C3_witness :
    (∀ c t, (c, t) ∈ wState.category_totals →
      ∃ members, lookupA c wState.grouped = some members ∧ t = sumPos members)
    ∧ wState.total_players = (wState.category_totals.map Prod.snd).sum
    ∧ (∀ st i, i.num_players ≤ 0 → ∃ st2, processInfo st i = .ok st2
        ∧ st2.category_totals = st.category_totals
        ∧ st2.total_players = st.total_players) :=
  claim_C3 wInfos wState rfl

/-- C10: the totals step of `build_embed` is not total — any status list
containing a status with positive `num_players` whose category is outside
`CATEGORY_ORDER` makes the loop raise `KeyError` — while for every status
list actually produced by probing the configured `SERVERS` (whose
categories all lie in `CATEGORY_ORDER`) the loop always succeeds, so the
error branch is unreachable for the shipped configuration. -/
theorem claim_C10 :
    (∀ infos : List ServerInfo,
      (∃ i ∈ infos, 0 < i.num_players ∧ i.category ∉ CATEGORY_ORDER) →
      processAll initState infos = .error "KeyError")
    ∧ ∀ (serverIP : String) (resp : Server → HttpResult),
        ∃ st, processAll initState (probeAll serverIP resp) = .ok st := by
  constructor
  · rintro infos ⟨i, hi, hip, hic⟩
    rcases processAll_dichotomy infos initState with ⟨st', hok⟩ | herr
    · exfalso
      have := (processAll_ok_iff infos initState).mp ⟨st', hok⟩ i hi hip
      rw [initState_ct_keys] at this
      exact hic this
    · exact herr
  · exact processAll_probeAll_ok

/-- A status with a category (`Rally`) outside `CATEGORY_ORDER` and a
positive player count. -/
def badInfo : ServerInfo :=
  { name := "x", category := "Rally", map := "spa", players := "1/2",
    num_players := 1, ip := "h", port := 1 }

/-- C10 witness: the loop raises `KeyError` on the singleton list holding
the Rally status. -/
theorem claim_C10_witness :
    processAll initState [badInfo] = .error "KeyError" :=
  claim_C10.1 [badInfo] ⟨badInfo, by simp, by decide, by decide⟩

/-- C5: whatever the (unordered) completion order of the concurrent probes,
`asyncio.gather`'s re-association by original index reconstructs the
configured order; the grouping then succeeds and gives, for each category
in `CATEGORY_ORDER`, exactly the configured servers of that category in
configured order, and every probed status belongs to exactly one category
group. -/
theorem claim_C5 (serverIP : String) (resp : Server → HttpResult) (order : List Nat)
    (hperm : order.Perm (List.range (probeAll serverIP resp).length)) :
    reassemble (probeAll serverIP resp).length
        (completionPairs (probeAll serverIP resp) order)
      = (probeAll serverIP resp).map some
    ∧ ∃ st, processAll initState (probeAll serverIP resp) = .ok st
        ∧ st.grouped = CATEGORY_ORDER.map (fun c =>
            (c, (probeAll serverIP resp).filter (fun i => decide (i.category = c))))
        ∧ ∀ i ∈ probeAll serverIP resp,
            CATEGORY_ORDER.countP
              (fun c => decide (i ∈ (lookupA c st.grouped).getD [])) = 1 := by
  obtain ⟨st, hok⟩ := processAll_probeAll_ok serverIP resp
  have hndg : (initState.grouped.map Prod.fst).Nodup := by
    rw [initState_g_keys]
    decide
  have hkeys : ∀ i ∈ probeAll serverIP resp, i.category ∈ initState.grouped.map Prod.fst := by
    rw [initState_g_keys]
    exact probeAll_category_mem serverIP resp
  have hgroup := processAll_grouped_eq (probeAll serverIP resp) initState st hndg hkeys hok
  have hgroup2 : st.grouped = CATEGORY_ORDER.map (fun c =>
      (c, (probeAll serverIP resp).filter (fun i => decide (i.category = c)))) := by
    rw [hgroup]
    have hg0 : initState.grouped
        = CATEGORY_ORDER.map (fun c => (c, ([] : List ServerInfo))) := rfl
    rw [hg0, List.map_map]
    apply List.map_congr_left
    intro c _
    simp
  have hlookup : ∀ c ∈ CATEGORY_ORDER, lookupA c st.grouped
      = some ((probeAll serverIP resp).filter (fun i => decide (i.category = c))) := by
    intro c hcm
    have := (processAll_ok_spec (probeAll serverIP resp) initState st
      initState_ct_nodup hok).2.2 c [] (initState_grouped_lookup hcm)
    simpa using this
  refine ⟨reassemble_perm _ order hperm, st, hok, hgroup2, ?_⟩
  intro i hi
  have hcongr : ∀ c ∈ CATEGORY_ORDER,
      (decide (i ∈ (lookupA c st.grouped).getD ([] : List ServerInfo)) = true
        ↔ decide (i.category = c) = true) := by
    intro c hcm
    rw [hlookup c hcm]
    simp [List.mem_filter, hi]
  rw [List.countP_congr hcongr]
  exact countP_eq_single CATEGORY_ORDER i.category (by decide)
    (probeAll_category_mem serverIP resp i hi)

/-- The all-timeout network outcome used by witnesses. -/
def wResp : Server → HttpResult := fun _ => .timeout

/-- C5 witness: the ordering statement evaluated at the configured server
list with every probe timed out and the reversed completion order. -/
theorem claim_C5_witness :
    reassemble (probeAll "h" wResp).length
        (completionPairs (probeAll "h" wResp) (List.range 10).reverse)
      = (probeAll "h" wResp).map some
    ∧ ∃ st, processAll initState (probeAll "h" wResp) = .ok st
        ∧ st.grouped = CATEGORY_ORDER.map (fun c =>
            (c, (probeAll "h" wResp).filter (fun i => decide (i.category = c))))
        ∧ ∀ i ∈ probeAll "h" wResp,
            CATEGORY_ORDER.countP
              (fun c => decide (i ∈ (lookupA c st.grouped).getD [])) = 1 :=
  claim_C5 "h" wResp (List.range 10).reverse
    (by
      have hlen : (probeAll "h" wResp).length = 10 := rfl
      rw [hlen]
      exact (List.reverse_perm (List.range 10)))

/-- C7: in any embed rendered for probed statuses, every probed status has
its server entry field present, and the entry's marker is the green online
emoji iff `num_players ≥ 0` and the red offline emoji iff
`num_players < 0`; in particular a response reporting `clients = 0` gets
the online marker while leaving every total unchanged. -/
theorem claim_C7 (serverIP : String) (resp : Server → HttpResult) (e : Embed)
    (hbe : build_embed (probeAll serverIP resp) = .ok e) :
    (∀ i ∈ probeAll serverIP resp,
        serverField i ∈ e.fields
        ∧ (statusEmoji i = "🟢" ↔ 0 ≤ i.num_players)
        ∧ (statusEmoji i = "🔴" ↔ i.num_players < 0))
    ∧ (∀ (server : Server) (r : HttpResult) (d : InfoData),
        r.json = some d → d.clients = some 0 →
        statusEmoji (get_server_info server r) = "🟢"
        ∧ ∀ st st2, processInfo st (get_server_info server r) = .ok st2 →
            st2.category_totals = st.category_totals
            ∧ st2.total_players = st.total_players) := by
  constructor
  · rcases hok : processAll initState (probeAll serverIP resp) with e2 | st
    · rw [build_embed, hok] at hbe
      simp at hbe
    · rw [build_embed, hok] at hbe
      injection hbe with hbe
      subst hbe
      intro i hi
      refine ⟨?_, statusEmoji_green_iff i, statusEmoji_red_iff i⟩
      have hcm : i.category ∈ CATEGORY_ORDER := probeAll_category_mem serverIP resp i hi
      have hlookup : lookupA i.category st.grouped
          = some ((probeAll serverIP resp).filter
              (fun j => decide (j.category = i.category))) := by
        have := (processAll_ok_spec (probeAll serverIP resp) initState st
          initState_ct_nodup hok).2.2 i.category [] (initState_grouped_lookup hcm)
        simpa using this
      apply List.mem_flatten.mpr
      refine ⟨categorySection st i.category, List.mem_map_of_mem _ hcm, ?_⟩
      simp only [categorySection, hlookup, Option.getD_some]
      apply List.mem_cons_of_mem
      apply List.mem_append_left
      apply List.mem_map_of_mem
      exact List.mem_filter.mpr ⟨hi, by simp⟩
  · intro server r d hj hc
    have hnp : (get_server_info server r).num_players = 0 := by
      simp [get_server_info, hj, hc]
    constructor
    · exact (statusEmoji_green_iff _).mpr (by rw [hnp])
    · intro st0 st2 hps
      have hlt : ¬0 < (get_server_info server r).num_players := by
        rw [hnp]
        omega
      simp only [processInfo, hlt, if_false] at hps
      injection hps with hps
      subst hps
      exact ⟨rfl, rfl⟩

/-- The embed rendered for the configured servers when every probe times
out. -/
def wEmbed : Embed := ((build_embed (probeAll "h" wResp)).toOption).getD ⟨"", "", []⟩

/-- C7 witness: the marker statement evaluated on the embed rendered from
the all-timeout cycle. -/
theorem claim_C7_witness :
    (∀ i ∈ probeAll "h" wResp,
        serverField i ∈ wEmbed.fields
        ∧ (statusEmoji i = "🟢" ↔ 0 ≤ i.num_players)
        ∧ (statusEmoji i = "🔴" ↔ i.num_players < 0))
    ∧ (∀ (server : Server) (r : HttpResult) (d : InfoData),
        r.json = some d → d.clients = some 0 →
        statusEmoji (get_server_info server r) = "🟢"
        ∧ ∀ st st2, processInfo st (get_server_info server r) = .ok st2 →
            st2.category_totals = st.category_totals
            ∧ st2.total_players = st.total_players) :=
  claim_C7 "h" wResp wEmbed rfl

/-- C8: when the configured channel does not resolve, the cycle only logs
the channel error — it performs no send and no edit, raises nothing, and
leaves the stored handle unchanged — and the loop stays scheduled, so the
same state is retried at the next interval. -/
theorem claim_C8 (env : CycleEnv) (handle : Option Nat)
    (hch : env.channelFound = false) :
    update_servers env handle =
      { handle := handle, actions := [], exc := none, loggedChannelError := true }
    ∧ ∀ st : LoopState, st.running = true → st.server_message = handle →
        loopTick env st =
          { server_message := handle, running := true
            loggedLoopError := st.loggedLoopError } := by
  constructor
  · simp [update_servers, hch]
  · intro st h1 h2
    simp [loopTick, h1, h2, update_servers, hch]

/-- A cycle environment whose channel lookup fails. -/
def wEnv8 : CycleEnv :=
  { channelFound := false, sendResult := .ok 1
    editResult := .ok 1, recreateSendResult := .ok 1 }

/-- C8 witness: the skip-cycle behaviour evaluated with a stored handle 5. -/
theorem claim_C8_witness :
    update_servers wEnv8 (some 5) =
      { handle := some 5, actions := [], exc := none, loggedChannelError := true }
    ∧ ∀ st : LoopState, st.running = true → st.server_message = some 5 →
        loopTick wEnv8 st =
          { server_message := some 5, running := true
            loggedLoopError := st.loggedLoopError } :=
  claim_C8 wEnv8 (some 5) rfl

/-- A cycle environment in which the edit fails with a non-NotFound error
(e.g. `discord.Forbidden`). -/
def cexEnv9 : CycleEnv :=
  { channelFound := true, sendResult := .ok 1
    editResult := .otherError, recreateSendResult := .ok 2 }

/-- The loop state before the failing tick: running, with handle 1. -/
def cexLoopState9 : LoopState :=
  { server_message := some 1, running := true, loggedLoopError := false }

/-- C9, the claim as frozen, refuted at a concrete input: an edit failing
with a non-NotFound Discord error escapes `update_servers`; the tasks-loop
driver logs it, but — the exception not being one of the loop's network
reconnect exceptions — the internal task terminates, so no next tick runs
at the following interval. -/
theorem claim_C9_counterexample :
    (update_servers cexEnv9 cexLoopState9.server_message).exc = some .other
    ∧ (loopTick cexEnv9 cexLoopState9).loggedLoopError = true
    ∧ (loopTick cexEnv9 cexLoopState9).running = false := by
  decide

/-- C9 amended: a cycle that completes without an exception is followed by
the next tick at the fixed interval (the loop keeps running with the
updated handle); a cycle from which a network-class error escapes
(`OSError` / gateway or connection errors / `aiohttp.ClientError` /
`asyncio.TimeoutError`, which discord.py re-raises out of `send` / `edit`)
is retried after an exponential backoff — the loop survives and its error
handler logs nothing; a cycle from which any other uncaught error escapes
(a Discord API error such as `discord.Forbidden`) is logged by the loop's
error handler and terminates the internal task: no further tick runs until
the process restarts (the process itself keeps running). -/
theorem claim_C9_amended (env : CycleEnv) (st : LoopState) (hrun : st.running = true) :
    ((update_servers env st.server_message).exc = none →
      (loopTick env st).running = true
      ∧ (loopTick env st).server_message = (update_servers env st.server_message).handle
      ∧ loopNextRun env st = .interval)
    ∧ ((update_servers env st.server_message).exc = some .network →
      (loopTick env st).running = true
      ∧ (loopTick env st).loggedLoopError = st.loggedLoopError
      ∧ (loopTick env st).server_message = (update_servers env st.server_message).handle
      ∧ loopNextRun env st = .backoff)
    ∧ (∀ k, (update_servers env st.server_message).exc = some k → k ≠ .network →
      (loopTick env st).running = false ∧ (loopTick env st).loggedLoopError = true
      ∧ loopNextRun env st = .stopped) := by
  refine ⟨?_, ?_, ?_⟩
  · intro hx
    simp [loopTick, loopNextRun, hrun, hx]
  · intro hx
    simp [loopTick, loopNextRun, hrun, hx]
  · intro k hx hk
    rcases k with _ | _ | _
    · simp [loopTick, loopNextRun, hrun, hx]
    · simp [loopTick, loopNextRun, hrun, hx]
    · exact absurd rfl hk

/-- A cycle environment whose edit raises a network-class error (e.g. an
`aiohttp.ClientError` re-raised by discord.py's HTTP layer). -/
def wEnv9 : CycleEnv :=
  { channelFound := true, sendResult := .ok 1
    editResult := .networkError, recreateSendResult := .ok 1 }

/-- The loop state before the network-failing tick. -/
def wSt9 : LoopState :=
  { server_message := some 1, running := true, loggedLoopError := false }

/-- C9 witness: a cycle whose edit fails with a network-class error is
retried after a backoff — the loop survives with nothing logged by its
error handler and the handle unchanged. -/
theorem claim_C9_witness :
    (loopTick wEnv9 wSt9).running = true
    ∧ (loopTick wEnv9 wSt9).loggedLoopError = wSt9.loggedLoopError
    ∧ (loopTick wEnv9 wSt9).server_message
        = (update_servers wEnv9 wSt9.server_message).handle
    ∧ loopNextRun wEnv9 wSt9 = .backoff :=
  (claim_C9_amended wEnv9 wSt9 rfl).2.1 rfl

end AbsaBot
